import Mathlib

/-!
Verification of the salary-vs-inflation core computation from
`src/salary_vs_inflation.py`.

The program has two pieces of real logic:

* `calculate_inflation(year1, year2)` — the CPI ratio
  `cpi_year.loc[year2] / cpi_year.loc[year1]` (scalar and vectorized);
* `calculate_adjusted_salaries(salaries_dict, target_year)` — sorts the
  observations, aligns them on the union of the observation years with
  `RangeIndex(min_year, 2025)`, attaches the observation years as a
  `reference` column, forward/backward fills both columns, and derives
  `Eroded Salary = Salary / inflation` and `Target Salary = Salary * inflation`
  where `inflation` is the CPI ratio from the per-row reference year
  (`target_year is None`) or from the constant `target_year`.

Years are embedded as `Int`, money and CPI values as exact rationals `ℚ`
(the Python floats carry real-number semantics in the spec's formulas),
missing values (`NaN` cells of a pandas column) as `Option`, and raisable
exceptions as `Except PyErr`.

The CPI table `data/cpi_by_year.csv` read by `load_cpi` is data of the
repository that is not under `src/`; following the spec it is modelled as an
abstract lookup covering exactly the years 1988–2024 with positive values
(`IsCpiProvider`), plus one concrete instance `cpiExample` used to evaluate
theorems on concrete inputs.
-/

namespace SalaryVsInflation

/-- Exceptions the program can raise.  `indexErr` is the `IndexError` raised
by `salaries.index[0]` on an empty observation mapping (line 69);
`keyErr y` is the `KeyError` raised by `cpi_year.loc[y]` for a year absent
from the CPI table (line 63); `keyErrNaN` is the `KeyError` a `.loc` lookup
of a `NaN` label would raise. -/
inductive PyErr where
  | indexErr
  | keyErr (year : Int)
  | keyErrNaN
deriving DecidableEq

/-- In Python, both `IndexError` and `KeyError` are subclasses of
`LookupError`, so every exception this program raises is a `LookupError`. -/
def isLookupError : PyErr → Bool := fun _ => true

/-- The program defines no `InvalidInputError` class (nor imports one), and
the only exceptions its code can raise are the pandas `IndexError` and
`KeyError` modelled above, so no raised error is an `InvalidInputError`. -/
def isInvalidInputError : PyErr → Bool := fun _ => false

/-- Modelled from the spec: the CPI table `data/cpi_by_year.csv` loaded by
`load_cpi` is not under `src/`.  Per the spec, the Index Provider exposes a
positive index value for every year 1988–2024 and has no entry outside this
range.  A provider is any lookup function with these two properties. -/
def IsCpiProvider (cpi : Int → Option ℚ) : Prop :=
  (∀ y : Int, 1988 ≤ y → y ≤ 2024 → ∃ q : ℚ, 0 < q ∧ cpi y = some q) ∧
  (∀ y : Int, y < 1988 ∨ 2024 < y → cpi y = none)

/-- Modelled from the spec: a concrete provider instance covering 1988–2024
with positive values, used to evaluate theorems at concrete inputs.  The real
CSV values are not in `src/`; no general theorem depends on the values. -/
def cpiExample : Int → Option ℚ := fun y =>
  if 1988 ≤ y ∧ y ≤ 2024 then some ((100 + (y - 1988) : ℤ) : ℚ) else none

/-- Lookup in an association list; models indexing the pandas `Series` built
from the Python dict `salaries_dict` (dict keys are unique). -/
def lookupA {α : Type} (y : Int) : List (Int × α) → Option α
  | [] => none
  | p :: rest => if p.1 = y then some p.2 else lookupA y rest

/-- One forward-fill pass with carried last-seen value; models `DataFrame.ffill`
on a column whose `NaN` cells are `none`. -/
def ffillAux {α : Type} (c : Option α) : List (Option α) → List (Option α)
  | [] => []
  | x :: xs => (x.orElse fun _ => c) :: ffillAux (x.orElse fun _ => c) xs

/-- `DataFrame.ffill` on one column. -/
def ffill {α : Type} (l : List (Option α)) : List (Option α) := ffillAux none l

/-- `DataFrame.bfill` on one column: a forward fill run backwards. -/
def bfill {α : Type} (l : List (Option α)) : List (Option α) :=
  (ffillAux none l.reverse).reverse

/-- `n` consecutive integers starting at `a`. -/
def intRangeN (a : Int) : Nat → List Int
  | 0 => []
  | n + 1 => a :: intRangeN (a + 1) n

/-- Models `pd.RangeIndex(a, b)`: the years `a, a+1, …, b-1` (empty when
`b ≤ a`). -/
def intRange (a b : Int) : List Int := intRangeN a (b - a).toNat

/-- Models the index union performed by `DataFrame.align` (outer join) on two
sorted unique indexes: the sorted deduplicated union of the labels. -/
def unionIdx (xs ys : List Int) : List Int :=
  List.insertionSort (· ≤ ·) ((xs ++ ys).dedup)

/-- Vectorized `cpi_year.loc[years]`: values of all requested years, raising
`KeyError` on the first missing one. -/
def lookupVec (cpi : Int → Option ℚ) : List Int → Except PyErr (List ℚ)
  | [] => .ok []
  | y :: ys =>
    match cpi y with
    | none => .error (.keyErr y)
    | some q =>
      match lookupVec cpi ys with
      | .error e => .error e
      | .ok qs => .ok (q :: qs)

/-- Vectorized `cpi_year.loc` over a column that may contain `NaN` labels
(a `NaN` label is not in the integer index, so `.loc` raises `KeyError`). -/
def lookupVecOpt (cpi : Int → Option ℚ) : List (Option Int) → Except PyErr (List ℚ)
  | [] => .ok []
  | none :: _ => .error .keyErrNaN
  | some y :: ys =>
    match cpi y with
    | none => .error (.keyErr y)
    | some q =>
      match lookupVecOpt cpi ys with
      | .error e => .error e
      | .ok qs => .ok (q :: qs)

/-- `calculate_inflation` (scalar overload), line 61–63:
`cpi_year.loc[year2].to_numpy() / cpi_year.loc[year1].to_numpy()`.
Python evaluates the numerator lookup first. -/
def calculate_inflation (cpi : Int → Option ℚ) (year1 year2 : Int) : Except PyErr ℚ :=
  match cpi year2 with
  | none => .error (.keyErr year2)
  | some i2 =>
    match cpi year1 with
    | none => .error (.keyErr year1)
    | some i1 => .ok (i2 / i1)

/-- `calculate_inflation` (vectorized overload) as called on line 74 with two
aligned columns: elementwise `cpi[year2] / cpi[year1]`, numerator lookups
first.  `year1s` is the `reference` column, which as a float column can in
principle hold `NaN`. -/
def calculate_inflation_vec (cpi : Int → Option ℚ) (year1s : List (Option Int))
    (year2s : List Int) : Except PyErr (List ℚ) :=
  match lookupVec cpi year2s with
  | .error e => .error e
  | .ok i2 =>
    match lookupVecOpt cpi year1s with
    | .error e => .error e
    | .ok i1 => .ok (List.zipWith (· / ·) i2 i1)

/-- `calculate_inflation` as called on line 76 with a scalar `year1` broadcast
against the year index: `cpi[year2s] / cpi[year1]` elementwise. -/
def calculate_inflation_bcast (cpi : Int → Option ℚ) (year1 : Int)
    (year2s : List Int) : Except PyErr (List ℚ) :=
  match lookupVec cpi year2s with
  | .error e => .error e
  | .ok i2 =>
    match cpi year1 with
    | none => .error (.keyErr year1)
    | some i1 => .ok (i2.map (· / i1))

/-- One row of the densified output table of `calculate_adjusted_salaries`:
columns `Salary`, `reference`, `Eroded Salary`, `Target Salary`, keyed by
`year`.  Cells of float columns may be `NaN`, hence `Option`. -/
structure Row where
  year : Int
  salary : Option ℚ
  reference : Option Int
  erodedSalary : Option ℚ
  targetSalary : Option ℚ
deriving DecidableEq

/-- Assembles the output rows from the year axis, the two filled columns and
the inflation column (lines 78–79): `Eroded Salary = Salary / inflation`,
`Target Salary = Salary * inflation`. -/
def mkRows : List Int → List (Option ℚ) → List (Option Int) → List ℚ → List Row
  | y :: ys, s :: ss, rf :: rs, f :: fs =>
    ⟨y, s, rf, s.map (· / f), s.map (· * f)⟩ :: mkRows ys ss rs fs
  | _, _, _, _ => []

/-- Line 68: `pd.Series(salaries_dict).sort_index()` — the observations sorted
by year. -/
def sortObs (d : List (Int × ℚ)) : List (Int × ℚ) :=
  List.insertionSort (fun p q => p.1 ≤ q.1) d

/-- The first (minimum) observation year after sorting, `salaries.index[0]`. -/
def firstObsYear (d : List (Int × ℚ)) : Int :=
  (((sortObs d).head?).map (·.1)).getD 0

/-- Line 69: the aligned index — the union of the observation years with
`RangeIndex(salaries.index[0], 2025)`. -/
def axisOf (d : List (Int × ℚ)) : List Int :=
  unionIdx ((sortObs d).map (·.1)) (intRange (firstObsYear d) 2025)

/-- Lines 69 and 71 for the `Salary` column: align to the union index
(`NaN` where a year has no observation), then `ffill().bfill()`. -/
def salColOf (d : List (Int × ℚ)) : List (Option ℚ) :=
  bfill (ffill ((axisOf d).map (fun y => lookupA y (sortObs d))))

/-- Lines 70–71 for the `reference` column: assigning
`salaries.index.to_series()` puts each observation year at its own row and
`NaN` elsewhere; then `ffill().bfill()`. -/
def refColOf (d : List (Int × ℚ)) : List (Option Int) :=
  bfill (ffill ((axisOf d).map
    (fun y => if y ∈ (sortObs d).map (·.1) then some y else none)))

/-- Lines 68–71 of `calculate_adjusted_salaries`: densification.  On an empty
mapping, `salaries.index[0]` raises `IndexError`; otherwise it returns the
dense year axis and the two step-filled columns.  No validation of the
observation years happens here (the CPI table is not consulted). -/
def densify (d : List (Int × ℚ)) :
    Except PyErr (List Int × List (Option ℚ) × List (Option Int)) :=
  match (sortObs d).head? with
  | none => .error .indexErr
  | some _ => .ok (axisOf d, salColOf d, refColOf d)

/-- Lines 73–76: the inflation column, from the per-row `reference` column
when `target_year is None`, else from the constant `target_year`. -/
def inflationStage (cpi : Int → Option ℚ) (axis : List Int)
    (refCol : List (Option Int)) (target_year : Option Int) :
    Except PyErr (List ℚ) :=
  match target_year with
  | none => calculate_inflation_vec cpi refCol axis
  | some ty => calculate_inflation_bcast cpi ty axis

/-- `calculate_adjusted_salaries(salaries_dict, target_year)`, lines 66–84:
densify, compute the inflation column, derive the eroded/target columns. -/
def calculate_adjusted_salaries (cpi : Int → Option ℚ) (d : List (Int × ℚ))
    (target_year : Option Int) : Except PyErr (List Row) :=
  match densify d with
  | .error e => .error e
  | .ok (axis, salCol, refCol) =>
    match inflationStage cpi axis refCol target_year with
    | .error e => .error e
    | .ok infl => .ok (mkRows axis salCol refCol infl)

/-- Spec-side definition, following the spec's words: the most recent
observation at or before year `y` ("for each year in the axis, its salary
equals the value of the most recent observation at or before it"). -/
def mostRecentAtOrBefore {α : Type} (obs : List (Int × α)) (y : Int) :
    Option (Int × α) :=
  (obs.filter (fun p => p.1 ≤ y)).getLast?

/-- The reference year whose CPI value row `r`'s ratio divides by: the
constant `target_year` when fixed, the row's own `reference` cell when
floating. -/
def effectiveRef (target_year : Option Int) (r : Row) : Option Int :=
  match target_year with
  | some v => some v
  | none => r.reference

/-- The shared state visible to `calculate_adjusted_salaries`: the
user-edited observation dict and the process-wide cached CPI table. -/
structure AppState where
  salaries_dict : List (Int × ℚ)
  cpi_cache : Int → Option ℚ

/-- State-passing translation of `calculate_adjusted_salaries`: every pandas
operation in the body allocates fresh frames or writes only to the locals of
the call, so each translated step leaves the shared state untouched and the
final state is returned alongside the result. -/
def calculate_adjusted_salaries_st (st : AppState) (target_year : Option Int) :
    AppState × Except PyErr (List Row) :=
  match densify st.salaries_dict with
  | .error e => (st, .error e)
  | .ok (axis, salCol, refCol) =>
    match inflationStage st.cpi_cache axis refCol target_year with
    | .error e => (st, .error e)
    | .ok infl => (st, .ok (mkRows axis salCol refCol infl))

/-- The spec-side row for year `y`: step-held salary and reference from the
most recent observation at or before `y`, ratio anchored at the fixed target
year or at that reference. -/
def specRow (cpi : Int → Option ℚ) (sal : List (Int × ℚ)) (ty : Option Int)
    (y : Int) : Row :=
  let p := (mostRecentAtOrBefore sal y).getD (0, 0)
  let ref : Int := ty.getD p.1
  let f : ℚ := ((cpi y).getD 1) / ((cpi ref).getD 1)
  ⟨y, some p.2, some p.1, some (p.2 / f), some (p.2 * f)⟩

/-- The example observations from the spec's testable properties,
`{2002: 24000, 2014: 35000, 2022: 55000}`. -/
def exampleObs : List (Int × ℚ) := [(2002, 24000), (2014, 35000), (2022, 55000)]

instance {ε α : Type} [DecidableEq ε] [DecidableEq α] : DecidableEq (Except ε α) :=
  fun x y =>
    match x, y with
    | .ok a, .ok b =>
      if h : a = b then .isTrue (by rw [h]) else .isFalse (by simp [h])
    | .error a, .error b =>
      if h : a = b then .isTrue (by rw [h]) else .isFalse (by simp [h])
    | .ok _, .error _ => .isFalse (fun h => Except.noConfusion h)
    | .error _, .ok _ => .isFalse (fun h => Except.noConfusion h)

instance : DecidableRel (fun p q : Int × ℚ => p.1 ≤ q.1) :=
  fun p q => Int.decLe p.1 q.1

instance : IsTotal (Int × ℚ) (fun p q => p.1 ≤ q.1) :=
  ⟨fun a b => le_total a.1 b.1⟩

instance : IsTrans (Int × ℚ) (fun p q => p.1 ≤ q.1) :=
  ⟨fun _ _ _ h1 h2 => le_trans h1 h2⟩

/-! ### Option and `getLast?` helpers -/

lemma orElse_assoc {α : Type} (x y z : Option α) :
    (x.orElse fun _ => y).orElse (fun _ => z) = x.orElse fun _ => y.orElse fun _ => z := by
  cases x <;> rfl

lemma map_orElse {α β : Type} (f : α → β) (x y : Option α) :
    (x.orElse fun _ => y).map f = (x.map f).orElse fun _ => y.map f := by
  cases x <;> rfl

lemma orElse_none {α : Type} (x : Option α) : (x.orElse fun _ => none) = x := by
  cases x <;> rfl

lemma orElse_of_isSome {α : Type} {x : Option α} (h : x.isSome) (f : Unit → Option α) :
    x.orElse f = x := by
  cases x
  · exact absurd h (by simp)
  · rfl

lemma getLast?_cons {α : Type} (a : α) (l : List α) :
    (a :: l).getLast? = l.getLast?.orElse fun _ => some a := by
  cases l with
  | nil => rfl
  | cons b l =>
    rw [List.getLast?_cons_cons]
    have hs : ((b :: l).getLast?).isSome := by
      rw [List.getLast?_isSome]
      exact List.cons_ne_nil b l
    rw [orElse_of_isSome hs]

/-! ### `intRangeN` / `intRange` -/

lemma mem_intRangeN {y a : Int} {n : Nat} : y ∈ intRangeN a n ↔ a ≤ y ∧ y < a + n := by
  induction n generalizing a with
  | zero => simp [intRangeN]
  | succ n ih =>
    simp only [intRangeN, List.mem_cons, ih]
    omega

lemma mem_intRange {y a b : Int} : y ∈ intRange a b ↔ a ≤ y ∧ y < b := by
  unfold intRange
  rw [mem_intRangeN]
  omega

lemma pairwise_intRangeN {a : Int} {n : Nat} :
    List.Pairwise (· < ·) (intRangeN a n) := by
  induction n generalizing a with
  | zero => exact List.Pairwise.nil
  | succ n ih =>
    refine List.Pairwise.cons (fun y hy => ?_) ih
    have := mem_intRangeN.mp hy
    omega

lemma pairwise_intRange {a b : Int} : List.Pairwise (· < ·) (intRange a b) :=
  pairwise_intRangeN

/-! ### `unionIdx` -/

lemma mem_unionIdx {y : Int} {xs ys : List Int} :
    y ∈ unionIdx xs ys ↔ y ∈ xs ∨ y ∈ ys := by
  unfold unionIdx
  rw [(List.perm_insertionSort _ _).mem_iff, List.mem_dedup, List.mem_append]

lemma unionIdx_eq_of_subset {xs ys : List Int} (hsub : ∀ x ∈ xs, x ∈ ys)
    (hys : List.Pairwise (· < ·) ys) : unionIdx xs ys = ys := by
  have hnd : ((xs ++ ys).dedup).Nodup := List.nodup_dedup _
  have hysnd : ys.Nodup := hys.imp ne_of_lt
  have hperm : List.Perm ((xs ++ ys).dedup) ys := by
    refine List.perm_of_nodup_nodup_toFinset_eq hnd hysnd ?_
    ext a
    simp only [List.mem_toFinset, List.mem_dedup, List.mem_append]
    exact ⟨fun h => h.elim (hsub a) id, Or.inr⟩
  have hsorted : List.Sorted (· ≤ ·) (List.insertionSort (· ≤ ·) ((xs ++ ys).dedup)) :=
    List.sorted_insertionSort _ _
  exact List.eq_of_perm_of_sorted ((List.perm_insertionSort _ _).trans hperm)
    hsorted (hys.imp le_of_lt)

/-! ### Fill lemmas -/

lemma ffillAux_length {α : Type} (c : Option α) (l : List (Option α)) :
    (ffillAux c l).length = l.length := by
  induction l generalizing c with
  | nil => rfl
  | cons x xs ih => simp [ffillAux, ih]

lemma ffill_length {α : Type} (l : List (Option α)) : (ffill l).length = l.length :=
  ffillAux_length none l

lemma bfill_length {α : Type} (l : List (Option α)) : (bfill l).length = l.length := by
  unfold bfill
  rw [List.length_reverse, ffillAux_length, List.length_reverse]

lemma ffillAux_of_forall_ne_none {α : Type} {l : List (Option α)}
    (h : ∀ x ∈ l, x ≠ none) : ∀ c, ffillAux c l = l := by
  induction l with
  | nil => intro c; rfl
  | cons x xs ih =>
    intro c
    cases hx : x with
    | none => exact absurd hx (h x (List.mem_cons_self _ _))
    | some v =>
      have hv : ((some v).orElse fun _ => c) = some v := rfl
      simp only [ffillAux, hx, hv]
      rw [ih (fun z hz => h z (List.mem_cons_of_mem _ hz))]

lemma bfill_of_forall_ne_none {α : Type} {l : List (Option α)}
    (h : ∀ x ∈ l, x ≠ none) : bfill l = l := by
  unfold bfill
  rw [ffillAux_of_forall_ne_none (fun x hx => h x (List.mem_reverse.mp hx)),
    List.reverse_reverse]

/-! ### Sorted association lists -/

lemma getLast_filter_key_eq {α : Type} {obs : List (Int × α)}
    (hs : List.Pairwise (fun p q => p.1 < q.1) obs) (a : Int) :
    ((obs.filter (fun p => p.1 = a)).getLast?).map (·.2) = lookupA a obs := by
  induction obs with
  | nil => rfl
  | cons p rest ih =>
    rw [List.pairwise_cons] at hs
    by_cases hpa : p.1 = a
    · have hrest : rest.filter (fun q => decide (q.1 = a)) = [] := by
        refine List.filter_eq_nil_iff.mpr (fun q hq => ?_)
        have := hs.1 q hq
        simp only [decide_eq_true_eq]
        omega
      have c1 : decide (p.1 = a) = true := by
        simp only [decide_eq_true_eq]
        omega
      simp only [List.filter_cons, c1, ite_true, hrest, List.getLast?_singleton,
        Option.map_some', lookupA, hpa, if_pos]
      simp
    · have c1 : decide (p.1 = a) = false := by
        simp only [decide_eq_false_iff_not]
        omega
      simp only [List.filter_cons, c1, Bool.false_eq_true, ite_false, lookupA, hpa,
        if_neg, ite_false]
      exact ih hs.2

lemma getLast_filter_range_succ {α : Type} {obs : List (Int × α)}
    (hs : List.Pairwise (fun p q => p.1 < q.1) obs) {a y : Int} (hay : a ≤ y) :
    (obs.filter (fun p => a ≤ p.1 ∧ p.1 ≤ y)).getLast? =
      ((obs.filter (fun p => a + 1 ≤ p.1 ∧ p.1 ≤ y)).getLast?).orElse
        (fun _ => (obs.filter (fun p => p.1 = a)).getLast?) := by
  induction obs with
  | nil => rfl
  | cons p rest ih =>
    rw [List.pairwise_cons] at hs
    by_cases hpa : p.1 = a
    · have hgt : ∀ q ∈ rest, a < q.1 := fun q hq => hpa ▸ hs.1 q hq
      have hrest0 : rest.filter (fun q => decide (q.1 = a)) = [] := by
        refine List.filter_eq_nil_iff.mpr (fun q hq => ?_)
        have := hgt q hq
        simp only [decide_eq_true_eq]
        omega
      have hsame : rest.filter (fun q => decide (a ≤ q.1 ∧ q.1 ≤ y)) =
          rest.filter (fun q => decide (a + 1 ≤ q.1 ∧ q.1 ≤ y)) := by
        refine List.filter_congr (fun q hq => ?_)
        have := hgt q hq
        simp only [decide_eq_decide]
        omega
      simp only [List.filter_cons]
      have c1 : decide (a ≤ p.1 ∧ p.1 ≤ y) = true := by
        simp only [decide_eq_true_eq]
        omega
      have c2 : decide (a + 1 ≤ p.1 ∧ p.1 ≤ y) = false := by
        simp only [decide_eq_false_iff_not]
        omega
      have c3 : decide (p.1 = a) = true := by
        simp only [decide_eq_true_eq]
        omega
      rw [c1, c2, c3]
      simp only [if_pos, if_neg, getLast?_cons, hrest0, hsame, Bool.false_eq_true,
        ite_false, ite_true, List.getLast?_singleton]
      rfl
    · by_cases hlt : p.1 < a
      · have c1 : decide (a ≤ p.1 ∧ p.1 ≤ y) = false := by
          simp only [decide_eq_false_iff_not]
          omega
        have c2 : decide (a + 1 ≤ p.1 ∧ p.1 ≤ y) = false := by
          simp only [decide_eq_false_iff_not]
          omega
        have c3 : decide (p.1 = a) = false := by
          simp only [decide_eq_false_iff_not]
          omega
        simp only [List.filter_cons, c1, c2, c3, Bool.false_eq_true, ite_false]
        exact ih hs.2
      · have hgt : a < p.1 := by omega
        have hrest0 : rest.filter (fun q => decide (q.1 = a)) = [] := by
          refine List.filter_eq_nil_iff.mpr (fun q hq => ?_)
          have := hs.1 q hq
          simp only [decide_eq_true_eq]
          omega
        have c3 : decide (p.1 = a) = false := by
          simp only [decide_eq_false_iff_not]
          omega
        have hsame : (p :: rest).filter (fun q => decide (a ≤ q.1 ∧ q.1 ≤ y)) =
            (p :: rest).filter (fun q => decide (a + 1 ≤ q.1 ∧ q.1 ≤ y)) := by
          refine List.filter_congr (fun q hq => ?_)
          rcases List.mem_cons.mp hq with hq | hq
          · subst hq
            simp only [decide_eq_decide]
            omega
          · have := hs.1 q hq
            simp only [decide_eq_decide]
            omega
        rw [hsame]
        have hnone : ((p :: rest).filter (fun q => decide (q.1 = a))).getLast? = none := by
          simp only [List.filter_cons, c3, Bool.false_eq_true, ite_false, hrest0,
            List.getLast?_nil]
        rw [hnone, orElse_none]

/-- Forward-filling the looked-up observation column over a contiguous year
range yields, at each year, the value of the last observation in `[a, y]`,
falling back to the incoming carry. -/
lemma ffillAux_lookup_intRangeN {α : Type} {obs : List (Int × α)}
    (hs : List.Pairwise (fun p q => p.1 < q.1) obs) :
    ∀ (n : Nat) (a : Int) (c : Option α),
      ffillAux c ((intRangeN a n).map (fun y => lookupA y obs)) =
        (intRangeN a n).map (fun y =>
          (((obs.filter (fun p => a ≤ p.1 ∧ p.1 ≤ y)).getLast?).map (·.2)).orElse
            (fun _ => c)) := by
  intro n
  induction n with
  | zero => intro a c; rfl
  | succ n ih =>
    intro a c
    simp only [intRangeN, List.map_cons, ffillAux]
    have hhead : ((obs.filter (fun p => a ≤ p.1 ∧ p.1 ≤ a)).getLast?).map (·.2) =
        lookupA a obs := by
      have hcongr : obs.filter (fun p => decide (a ≤ p.1 ∧ p.1 ≤ a)) =
          obs.filter (fun p => decide (p.1 = a)) := by
        refine List.filter_congr (fun q hq => ?_)
        simp only [decide_eq_decide]
        omega
      rw [hcongr, getLast_filter_key_eq hs]
    refine List.cons_eq_cons.mpr ⟨by rw [hhead], ?_⟩
    rw [ih (a + 1) ((lookupA a obs).orElse fun _ => c)]
    refine List.map_congr_left (fun y hy => ?_)
    have hay : a ≤ y := by
      have := mem_intRangeN.mp hy
      omega
    rw [getLast_filter_range_succ hs hay, map_orElse, orElse_assoc,
      getLast_filter_key_eq hs]

/-! ### Sorted observations -/

lemma sortObs_perm (d : List (Int × ℚ)) : List.Perm (sortObs d) d :=
  List.perm_insertionSort _ _

lemma sortObs_sorted (d : List (Int × ℚ)) :
    List.Pairwise (fun p q : Int × ℚ => p.1 ≤ q.1) (sortObs d) :=
  List.sorted_insertionSort _ _

lemma sortObs_pairwise_lt {d : List (Int × ℚ)} (hnd : (d.map (·.1)).Nodup) :
    List.Pairwise (fun p q : Int × ℚ => p.1 < q.1) (sortObs d) := by
  have h1 := sortObs_sorted d
  have h2 : ((sortObs d).map (·.1)).Nodup :=
    (List.Perm.nodup_iff (List.Perm.map _ (sortObs_perm d))).mpr hnd
  have h3 : List.Pairwise (fun p q : Int × ℚ => p.1 ≠ q.1) (sortObs d) :=
    List.pairwise_map.mp h2
  exact (h1.and h3).imp (fun h => lt_of_le_of_ne h.1 h.2)

lemma sortObs_eq_nil_iff {d : List (Int × ℚ)} : sortObs d = [] ↔ d = [] := by
  have hlen := (sortObs_perm d).length_eq
  constructor
  · intro h
    rw [h] at hlen
    exact List.length_eq_zero.mp hlen.symm
  · intro h
    subst h
    rfl

lemma firstObsYear_min {d : List (Int × ℚ)} : ∀ p ∈ sortObs d, firstObsYear d ≤ p.1 := by
  intro p hp
  cases hsal : sortObs d with
  | nil =>
    rw [hsal] at hp
    cases hp
  | cons q rest =>
    have hq : firstObsYear d = q.1 := by
      unfold firstObsYear
      rw [hsal]
      rfl
    rw [hq]
    have hsorted := sortObs_sorted d
    rw [hsal, List.pairwise_cons] at hsorted
    rw [hsal] at hp
    rcases List.mem_cons.mp hp with rfl | hp
    · exact le_refl _
    · exact hsorted.1 p hp

/-! ### `mostRecentAtOrBefore` -/

lemma mostRecentAtOrBefore_isSome {α : Type} {obs : List (Int × α)} {p : Int × α}
    {y : Int} (hp : p ∈ obs) (hle : p.1 ≤ y) :
    (mostRecentAtOrBefore obs y).isSome := by
  unfold mostRecentAtOrBefore
  rw [List.getLast?_isSome]
  intro h
  have hm : p ∈ obs.filter (fun q => decide (q.1 ≤ y)) :=
    List.mem_filter.mpr ⟨hp, by simpa using hle⟩
  rw [h] at hm
  cases hm

lemma mostRecentAtOrBefore_mem {α : Type} {obs : List (Int × α)} {y : Int}
    {p : Int × α} (h : mostRecentAtOrBefore obs y = some p) : p ∈ obs ∧ p.1 ≤ y := by
  unfold mostRecentAtOrBefore at h
  have hm : p ∈ obs.filter (fun q => decide (q.1 ≤ y)) :=
    List.mem_of_mem_getLast? (Option.mem_def.mpr h)
  have := List.mem_filter.mp hm
  exact ⟨this.1, by simpa using this.2⟩

lemma mostRecent_ne_none_on_axis {d : List (Int × ℚ)} (hne : d ≠ []) {y : Int}
    (hy : firstObsYear d ≤ y) : mostRecentAtOrBefore (sortObs d) y ≠ none := by
  cases hsal : sortObs d with
  | nil => exact absurd (sortObs_eq_nil_iff.mp hsal) hne
  | cons q rest =>
    have hq : q ∈ sortObs d := by
      rw [hsal]
      exact List.mem_cons_self _ _
    have hq1 : firstObsYear d = q.1 := by
      unfold firstObsYear
      rw [hsal]
      rfl
    have hqy : q.1 ≤ y := by omega
    have := mostRecentAtOrBefore_isSome hq hqy
    rw [hsal] at this
    exact Option.isSome_iff_ne_none.mp this

/-! ### The densified axis and columns -/

lemma axisOf_eq {d : List (Int × ℚ)} (hle : ∀ p ∈ sortObs d, p.1 ≤ 2024) :
    axisOf d = intRange (firstObsYear d) 2025 := by
  unfold axisOf
  refine unionIdx_eq_of_subset ?_ pairwise_intRange
  intro x hx
  obtain ⟨p, hp, rfl⟩ := List.mem_map.mp hx
  rw [mem_intRange]
  refine ⟨firstObsYear_min p hp, ?_⟩
  have := hle p hp
  omega

lemma salColOf_eq {d : List (Int × ℚ)} (hnd : (d.map (·.1)).Nodup) (hne : d ≠ [])
    (hax : axisOf d = intRange (firstObsYear d) 2025) :
    salColOf d = (axisOf d).map
      (fun y => (mostRecentAtOrBefore (sortObs d) y).map (·.2)) := by
  unfold salColOf ffill
  rw [hax]
  unfold intRange
  rw [ffillAux_lookup_intRangeN (sortObs_pairwise_lt hnd)]
  have hcongr : ∀ y ∈ intRangeN (firstObsYear d) (2025 - firstObsYear d).toNat,
      ((((sortObs d).filter
          (fun p => firstObsYear d ≤ p.1 ∧ p.1 ≤ y)).getLast?).map (·.2)).orElse
        (fun _ => none) =
      (mostRecentAtOrBefore (sortObs d) y).map (·.2) := by
    intro y hy
    rw [orElse_none]
    unfold mostRecentAtOrBefore
    congr 2
    refine List.filter_congr (fun q hq => ?_)
    have := firstObsYear_min q hq
    simp only [decide_eq_decide]
    omega
  rw [List.map_congr_left hcongr]
  refine bfill_of_forall_ne_none ?_
  intro x hx
  obtain ⟨y, hy, rfl⟩ := List.mem_map.mp hx
  have hymem := mem_intRangeN.mp hy
  have hmr := mostRecent_ne_none_on_axis hne hymem.1
  simp only [ne_eq, Option.map_eq_none']
  exact hmr

lemma lookupA_keySelf {α : Type} (l : List (Int × α)) (y : Int) :
    lookupA y (l.map (fun p => (p.1, p.1))) =
      if y ∈ l.map (·.1) then some y else none := by
  induction l with
  | nil => simp [lookupA]
  | cons p rest ih =>
    simp only [List.map_cons, lookupA]
    by_cases h : p.1 = y
    · simp [h, List.mem_cons]
    · have h2 : ¬ (y = p.1) := fun hc => h hc.symm
      simp only [h, ih, if_neg, ite_false, List.mem_cons, h2, false_or]

lemma mostRecent_map_keySelf {α : Type} (l : List (Int × α)) (y : Int) :
    mostRecentAtOrBefore (l.map (fun p => (p.1, p.1))) y =
      (mostRecentAtOrBefore l y).map (fun p => (p.1, p.1)) := by
  unfold mostRecentAtOrBefore
  rw [List.filter_map, List.getLast?_map]
  rfl

lemma refColOf_eq {d : List (Int × ℚ)} (hnd : (d.map (·.1)).Nodup) (hne : d ≠ [])
    (hax : axisOf d = intRange (firstObsYear d) 2025) :
    refColOf d = (axisOf d).map
      (fun y => (mostRecentAtOrBefore (sortObs d) y).map (·.1)) := by
  unfold refColOf ffill
  have hgen : (axisOf d).map
      (fun y => if y ∈ (sortObs d).map (·.1) then some y else none) =
      (axisOf d).map
        (fun y => lookupA y ((sortObs d).map (fun p => (p.1, p.1)))) := by
    refine List.map_congr_left (fun y hy => ?_)
    rw [lookupA_keySelf]
  rw [hgen, hax]
  unfold intRange
  have hplt : List.Pairwise (fun p q : Int × Int => p.1 < q.1)
      ((sortObs d).map (fun p => (p.1, p.1))) :=
    List.Pairwise.map _ (fun a b h => h) (sortObs_pairwise_lt hnd)
  rw [ffillAux_lookup_intRangeN hplt]
  have hcongr : ∀ y ∈ intRangeN (firstObsYear d) (2025 - firstObsYear d).toNat,
      (((((sortObs d).map (fun p => (p.1, p.1))).filter
          (fun p => firstObsYear d ≤ p.1 ∧ p.1 ≤ y)).getLast?).map (·.2)).orElse
        (fun _ => none) =
      (mostRecentAtOrBefore (sortObs d) y).map (·.1) := by
    intro y hy
    rw [orElse_none]
    have hflt : (((sortObs d).map (fun p => (p.1, p.1))).filter
        (fun p => decide (firstObsYear d ≤ p.1 ∧ p.1 ≤ y))) =
        (((sortObs d).map (fun p => (p.1, p.1))).filter
          (fun p => decide (p.1 ≤ y))) := by
      refine List.filter_congr (fun q hq => ?_)
      obtain ⟨p, hp, rfl⟩ := List.mem_map.mp hq
      have := firstObsYear_min p hp
      simp only [decide_eq_decide]
      omega
    rw [hflt]
    have hmk := mostRecent_map_keySelf (sortObs d) y
    unfold mostRecentAtOrBefore at hmk
    rw [hmk, Option.map_map]
    rfl
  rw [List.map_congr_left hcongr]
  refine bfill_of_forall_ne_none ?_
  intro x hx
  obtain ⟨y, hy, rfl⟩ := List.mem_map.mp hx
  have hymem := mem_intRangeN.mp hy
  have hmr := mostRecent_ne_none_on_axis hne hymem.1
  simp only [ne_eq, Option.map_eq_none']
  exact hmr

/-! ### `lookupVec` and friends -/

lemma lookupVec_ok_mem {cpi : Int → Option ℚ} {l : List Int} {qs : List ℚ}
    (h : lookupVec cpi l = .ok qs) : ∀ y ∈ l, cpi y ≠ none := by
  induction l generalizing qs with
  | nil => intro y hy; cases hy
  | cons y ys ih =>
    intro z hz
    rcases List.mem_cons.mp hz with rfl | hz
    · intro hn
      rw [lookupVec, hn] at h
      cases h
    · cases hy : cpi y with
      | none =>
        rw [lookupVec, hy] at h
        cases h
      | some q =>
        rw [lookupVec, hy] at h
        cases hrest : lookupVec cpi ys with
        | error e =>
          rw [hrest] at h
          cases h
        | ok qs2 => exact ih hrest z hz

lemma lookupVec_map_of {cpi : Int → Option ℚ} {l : List Int}
    (h : ∀ y ∈ l, cpi y ≠ none) :
    lookupVec cpi l = .ok (l.map (fun y => (cpi y).getD 1)) := by
  induction l with
  | nil => rfl
  | cons y ys ih =>
    cases hy : cpi y with
    | none => exact absurd hy (h y (List.mem_cons_self _ _))
    | some q =>
      rw [lookupVec, hy, ih (fun z hz => h z (List.mem_cons_of_mem _ hz))]
      simp [hy]

lemma lookupVecOpt_map_of {cpi : Int → Option ℚ} {l : List (Option Int)}
    (h : ∀ x ∈ l, ∃ y, x = some y ∧ cpi y ≠ none) :
    lookupVecOpt cpi l = .ok (l.map (fun x => ((x.bind cpi).getD 1))) := by
  induction l with
  | nil => rfl
  | cons x xs ih =>
    obtain ⟨y, rfl, hy⟩ := h x (List.mem_cons_self _ _)
    cases hcy : cpi y with
    | none => exact absurd hcy hy
    | some q =>
      rw [lookupVecOpt, hcy, ih (fun z hz => h z (List.mem_cons_of_mem _ hz))]
      simp [hcy, Option.bind]

lemma lookupVec_length {cpi : Int → Option ℚ} {l : List Int} {qs : List ℚ}
    (h : lookupVec cpi l = .ok qs) : qs.length = l.length := by
  induction l generalizing qs with
  | nil =>
    rw [lookupVec] at h
    cases h
    rfl
  | cons y ys ih =>
    cases hy : cpi y with
    | none =>
      rw [lookupVec, hy] at h
      cases h
    | some q =>
      rw [lookupVec, hy] at h
      cases hrest : lookupVec cpi ys with
      | error e =>
        rw [hrest] at h
        cases h
      | ok qs2 =>
        rw [hrest] at h
        cases h
        simp [ih hrest]

lemma lookupVec_get {cpi : Int → Option ℚ} {l : List Int} {qs : List ℚ}
    (h : lookupVec cpi l = .ok qs) :
    ∀ (i : Nat) (hi : i < l.length) (hi2 : i < qs.length),
      cpi (l.get ⟨i, hi⟩) = some (qs.get ⟨i, hi2⟩) := by
  induction l generalizing qs with
  | nil => intro i hi; cases hi
  | cons y ys ih =>
    intro i hi hi2
    cases hy : cpi y with
    | none =>
      rw [lookupVec, hy] at h
      cases h
    | some q =>
      rw [lookupVec, hy] at h
      cases hrest : lookupVec cpi ys with
      | error e =>
        rw [hrest] at h
        cases h
      | ok qs2 =>
        rw [hrest] at h
        cases h
        cases i with
        | zero => simpa using hy
        | succ i => exact ih hrest i (by simpa using hi) (by simpa using hi2)

lemma lookupVecOpt_length {cpi : Int → Option ℚ} {l : List (Option Int)} {qs : List ℚ}
    (h : lookupVecOpt cpi l = .ok qs) : qs.length = l.length := by
  induction l generalizing qs with
  | nil =>
    rw [lookupVecOpt] at h
    cases h
    rfl
  | cons x xs ih =>
    cases x with
    | none =>
      rw [lookupVecOpt] at h
      cases h
    | some y =>
      cases hy : cpi y with
      | none =>
        rw [lookupVecOpt, hy] at h
        cases h
      | some q =>
        rw [lookupVecOpt, hy] at h
        cases hrest : lookupVecOpt cpi xs with
        | error e =>
          rw [hrest] at h
          cases h
        | ok qs2 =>
          rw [hrest] at h
          cases h
          simp [ih hrest]

lemma lookupVecOpt_get {cpi : Int → Option ℚ} {l : List (Option Int)} {qs : List ℚ}
    (h : lookupVecOpt cpi l = .ok qs) :
    ∀ (i : Nat) (hi : i < l.length) (hi2 : i < qs.length),
      ∃ y, l.get ⟨i, hi⟩ = some y ∧ cpi y = some (qs.get ⟨i, hi2⟩) := by
  induction l generalizing qs with
  | nil => intro i hi; cases hi
  | cons x xs ih =>
    intro i hi hi2
    cases x with
    | none =>
      rw [lookupVecOpt] at h
      cases h
    | some y =>
      cases hy : cpi y with
      | none =>
        rw [lookupVecOpt, hy] at h
        cases h
      | some q =>
        rw [lookupVecOpt, hy] at h
        cases hrest : lookupVecOpt cpi xs with
        | error e =>
          rw [hrest] at h
          cases h
        | ok qs2 =>
          rw [hrest] at h
          cases h
          cases i with
          | zero => exact ⟨y, rfl, by simpa using hy⟩
          | succ i => exact ih hrest i (by simpa using hi) (by simpa using hi2)

/-! ### `zipWith` / `mkRows` -/

lemma zipWith_map_same {α β γ δ : Type} (f : β → γ → δ) (g : α → β) (h : α → γ)
    (l : List α) :
    List.zipWith f (l.map g) (l.map h) = l.map (fun x => f (g x) (h x)) := by
  induction l with
  | nil => rfl
  | cons x xs ih => simp [ih]

lemma mkRows_map (l : List Int) (f : Int → Option ℚ) (g : Int → Option Int)
    (h : Int → ℚ) :
    mkRows l (l.map f) (l.map g) (l.map h) =
      l.map (fun y => ⟨y, f y, g y, (f y).map (· / h y), (f y).map (· * h y)⟩) := by
  induction l with
  | nil => rfl
  | cons x xs ih => simp [mkRows, ih]

lemma mem_mkRows {r : Row} :
    ∀ {ys : List Int} {ss : List (Option ℚ)} {rs : List (Option Int)} {fs : List ℚ},
      r ∈ mkRows ys ss rs fs →
      ∃ (i : Nat) (h1 : i < ys.length) (h2 : i < ss.length) (h3 : i < rs.length)
        (h4 : i < fs.length),
        r = ⟨ys.get ⟨i, h1⟩, ss.get ⟨i, h2⟩, rs.get ⟨i, h3⟩,
          (ss.get ⟨i, h2⟩).map (· / fs.get ⟨i, h4⟩),
          (ss.get ⟨i, h2⟩).map (· * fs.get ⟨i, h4⟩)⟩ := by
  intro ys ss rs fs hr
  induction ys generalizing ss rs fs with
  | nil => cases hr
  | cons y ys ih =>
    cases ss with
    | nil => cases hr
    | cons s ss =>
      cases rs with
      | nil => cases hr
      | cons rf rs =>
        cases fs with
        | nil => cases hr
        | cons f fs =>
          rcases List.mem_cons.mp hr with rfl | hr2
          · exact ⟨0, by simp, by simp, by simp, by simp, rfl⟩
          · obtain ⟨i, h1, h2, h3, h4, heq⟩ := ih hr2
            exact ⟨i + 1, by simpa using h1, by simpa using h2, by simpa using h3,
              by simpa using h4, heq⟩

/-! ### Densification and provider facts -/

lemma densify_ok {d : List (Int × ℚ)} (hne : d ≠ []) :
    densify d = .ok (axisOf d, salColOf d, refColOf d) := by
  unfold densify
  cases hsal : (sortObs d).head? with
  | none =>
    rw [List.head?_eq_none_iff] at hsal
    exact absurd (sortObs_eq_nil_iff.mp hsal) hne
  | some p => rfl

lemma densify_nil : densify [] = .error .indexErr := rfl

lemma provider_mem_range {cpi : Int → Option ℚ} (h : IsCpiProvider cpi) {y : Int}
    {q : ℚ} (hq : cpi y = some q) : 1988 ≤ y ∧ y ≤ 2024 := by
  rcases lt_or_ge y 1988 with hlt | hge
  · rw [h.2 y (Or.inl hlt)] at hq
    cases hq
  · rcases le_or_lt y 2024 with hle | hgt
    · exact ⟨hge, hle⟩
    · rw [h.2 y (Or.inr hgt)] at hq
      cases hq

lemma provider_pos {cpi : Int → Option ℚ} (h : IsCpiProvider cpi) {y : Int}
    {q : ℚ} (hq : cpi y = some q) : 0 < q := by
  have hr := provider_mem_range h hq
  obtain ⟨q2, hpos, hq2⟩ := h.1 y hr.1 hr.2
  rw [hq] at hq2
  injection hq2 with h3
  rw [h3]
  exact hpos

lemma provider_ne_none {cpi : Int → Option ℚ} (h : IsCpiProvider cpi) {y : Int}
    (h1 : 1988 ≤ y) (h2 : y ≤ 2024) : cpi y ≠ none := by
  obtain ⟨q, _, hq⟩ := h.1 y h1 h2
  rw [hq]
  exact fun hc => Option.noConfusion hc

lemma cpiExample_isProvider : IsCpiProvider cpiExample := by
  constructor
  · intro y h1 h2
    refine ⟨((100 + (y - 1988) : ℤ) : ℚ), ?_, ?_⟩
    · have hz : (0 : ℤ) < 100 + (y - 1988) := by omega
      exact_mod_cast hz
    · unfold cpiExample
      rw [if_pos ⟨h1, h2⟩]
  · intro y hy
    unfold cpiExample
    have hn : ¬ (1988 ≤ y ∧ y ≤ 2024) := by
      rcases hy with h | h
      · omega
      · omega
    rw [if_neg hn]

/-- Master correctness lemma: under a spec-conforming provider and
well-formed in-range observations, `calculate_adjusted_salaries` succeeds and
produces exactly one row per year from the minimum observation year to 2024,
each row given by `specRow`. -/
lemma adjust_eq_spec {cpi : Int → Option ℚ} (hcpi : IsCpiProvider cpi)
    {d : List (Int × ℚ)} (hnd : (d.map (·.1)).Nodup) (hne : d ≠ [])
    (hrange : ∀ p ∈ d, 1988 ≤ p.1 ∧ p.1 ≤ 2024) {ty : Option Int}
    (hty : ∀ v, ty = some v → 1988 ≤ v ∧ v ≤ 2024) :
    calculate_adjusted_salaries cpi d ty =
      .ok ((intRange (firstObsYear d) 2025).map (specRow cpi (sortObs d) ty)) := by
  have hrange2 : ∀ p ∈ sortObs d, 1988 ≤ p.1 ∧ p.1 ≤ 2024 :=
    fun p hp => hrange p ((sortObs_perm d).mem_iff.mp hp)
  have hax : axisOf d = intRange (firstObsYear d) 2025 :=
    axisOf_eq (fun p hp => (hrange2 p hp).2)
  have haxis_range : ∀ y ∈ axisOf d, 1988 ≤ y ∧ y ≤ 2024 := by
    intro y hy
    rw [hax, mem_intRange] at hy
    cases hsal : sortObs d with
    | nil => exact absurd (sortObs_eq_nil_iff.mp hsal) hne
    | cons q rest =>
      have hq : q ∈ sortObs d := by
        rw [hsal]
        exact List.mem_cons_self _ _
      have hqr := hrange2 q hq
      have hq1 : firstObsYear d = q.1 := by
        unfold firstObsYear
        rw [hsal]
        rfl
      omega
  have hmr_some : ∀ y ∈ axisOf d, ∃ p, mostRecentAtOrBefore (sortObs d) y = some p ∧
      1988 ≤ p.1 ∧ p.1 ≤ 2024 := by
    intro y hy
    have h1 : firstObsYear d ≤ y := by
      rw [hax, mem_intRange] at hy
      omega
    have h2 := mostRecent_ne_none_on_axis hne h1
    cases hmr : mostRecentAtOrBefore (sortObs d) y with
    | none => exact absurd hmr h2
    | some p =>
      have hp := (mostRecentAtOrBefore_mem hmr).1
      exact ⟨p, rfl, hrange2 p hp⟩
  have hlv : lookupVec cpi (axisOf d) =
      .ok ((axisOf d).map (fun y => (cpi y).getD 1)) :=
    lookupVec_map_of
      (fun y hy => provider_ne_none hcpi (haxis_range y hy).1 (haxis_range y hy).2)
  have hsc := salColOf_eq hnd hne hax
  have hrc := refColOf_eq hnd hne hax
  cases ty with
  | none =>
    have hrc_ok : lookupVecOpt cpi (refColOf d) =
        .ok ((refColOf d).map (fun x => ((x.bind cpi).getD 1))) := by
      refine lookupVecOpt_map_of ?_
      intro x hx
      rw [hrc] at hx
      obtain ⟨y, hy, rfl⟩ := List.mem_map.mp hx
      obtain ⟨p, hp, hpr⟩ := hmr_some y hy
      exact ⟨p.1, by rw [hp]; rfl, provider_ne_none hcpi hpr.1 hpr.2⟩
    simp only [calculate_adjusted_salaries, densify_ok hne, inflationStage,
      calculate_inflation_vec, hlv, hrc_ok]
    rw [hsc, hrc, List.map_map, zipWith_map_same, mkRows_map]
    rw [hax]
    refine congrArg Except.ok (List.map_congr_left (fun y hy => ?_))
    obtain ⟨p, hp, hpr⟩ := hmr_some y (by rw [hax]; exact hy)
    simp only [specRow, Function.comp_apply, hp, Option.getD_some, Option.getD_none,
      Option.map_some', Option.some_bind]
  | some v =>
    obtain ⟨qv, hqpos, hqv⟩ := hcpi.1 v (hty v rfl).1 (hty v rfl).2
    simp only [calculate_adjusted_salaries, densify_ok hne, inflationStage,
      calculate_inflation_bcast, hlv, hqv]
    rw [hsc, hrc, List.map_map, mkRows_map]
    rw [hax]
    refine congrArg Except.ok (List.map_congr_left (fun y hy => ?_))
    obtain ⟨p, hp, hpr⟩ := hmr_some y (by rw [hax]; exact hy)
    simp only [specRow, Function.comp_apply, hp, hqv, Option.getD_some,
      Option.map_some']

/-- General row formula: for any successful run whatsoever, every output row's
eroded and target salaries are the step-held salary divided resp. multiplied
by the CPI ratio `cpi[row_year] / cpi[reference_year]`, where the reference is
the row's `reference` cell under the floating policy and the constant target
year under the fixed policy. -/
lemma rows_formula {cpi : Int → Option ℚ} {d : List (Int × ℚ)} {ty : Option Int}
    {t : List Row} (h : calculate_adjusted_salaries cpi d ty = .ok t) :
    ∀ r ∈ t, ∃ (ry : Int) (i1 i2 : ℚ), effectiveRef ty r = some ry ∧
      cpi ry = some i1 ∧ cpi r.year = some i2 ∧
      r.erodedSalary = r.salary.map (· / (i2 / i1)) ∧
      r.targetSalary = r.salary.map (· * (i2 / i1)) := by
  intro r hr
  unfold calculate_adjusted_salaries at h
  cases hd : densify d with
  | error e =>
    rw [hd] at h
    cases h
  | ok x =>
    obtain ⟨axis, salCol, refCol⟩ := x
    rw [hd] at h
    have h2 : (match inflationStage cpi axis refCol ty with
        | Except.error e => Except.error e
        | Except.ok infl => Except.ok (mkRows axis salCol refCol infl)) =
        Except.ok t := h
    clear h
    cases hi : inflationStage cpi axis refCol ty with
    | error e =>
      rw [hi] at h2
      cases h2
    | ok infl =>
      rw [hi] at h2
      injection h2 with h2
      subst h2
      obtain ⟨i, h1, h2, h3, h4, heq⟩ := mem_mkRows hr
      cases ty with
      | none =>
        unfold inflationStage calculate_inflation_vec at hi
        cases hlv2 : lookupVec cpi axis with
        | error e =>
          rw [hlv2] at hi
          cases hi
        | ok i2s =>
          rw [hlv2] at hi
          cases hlvo : lookupVecOpt cpi refCol with
          | error e =>
            rw [hlvo] at hi
            cases hi
          | ok i1s =>
            rw [hlvo] at hi
            injection hi with hi
            subst hi
            have hi2 : i < i2s.length := by
              have h4b := h4
              rw [List.length_zipWith] at h4b
              omega
            have hi1 : i < i1s.length := by
              have h4b := h4
              rw [List.length_zipWith] at h4b
              omega
            have hla : i < axis.length := h1
            have hginfl : (List.zipWith (· / ·) i2s i1s).get ⟨i, h4⟩ =
                i2s.get ⟨i, hi2⟩ / i1s.get ⟨i, hi1⟩ := List.get_zipWith
            obtain ⟨ry, hry, hcry⟩ := lookupVecOpt_get hlvo i h3 hi1
            have hcy := lookupVec_get hlv2 i h1 hi2
            refine ⟨ry, i1s.get ⟨i, hi1⟩, i2s.get ⟨i, hi2⟩, ?_, hcry, ?_, ?_, ?_⟩
            · rw [heq]
              exact hry
            · rw [heq]
              exact hcy
            · rw [heq]
              simp only [hginfl]
            · rw [heq]
              simp only [hginfl]
      | some v =>
        unfold inflationStage calculate_inflation_bcast at hi
        have hib : (match lookupVec cpi axis with
            | Except.error e => Except.error e
            | Except.ok i2 =>
              match cpi v with
              | none => Except.error (PyErr.keyErr v)
              | some i1 => Except.ok (i2.map (· / i1))) = Except.ok infl := hi
        clear hi
        cases hlv2 : lookupVec cpi axis with
        | error e =>
          rw [hlv2] at hib
          cases hib
        | ok i2s =>
          rw [hlv2] at hib
          cases hqv : cpi v with
          | none =>
            rw [hqv] at hib
            cases hib
          | some qv =>
            rw [hqv] at hib
            injection hib with hib
            subst hib
            have hi2 : i < i2s.length := by
              have h4b := h4
              rw [List.length_map] at h4b
              exact h4b
            have hginfl : (i2s.map (· / qv)).get ⟨i, h4⟩ =
                i2s.get ⟨i, hi2⟩ / qv := List.get_map _
            have hcy := lookupVec_get hlv2 i h1 hi2
            refine ⟨v, qv, i2s.get ⟨i, hi2⟩, rfl, hqv, ?_, ?_, ?_⟩
            · rw [heq]
              exact hcy
            · rw [heq]
              simp only [hginfl]
            · rw [heq]
              simp only [hginfl]

/-- A successful run implies: the observations were non-empty, every year on
the densified axis (hence every observation year) was found in the CPI table,
and so was the fixed target year when one was given. -/
lemma adjust_ok_inv {cpi : Int → Option ℚ} {d : List (Int × ℚ)} {ty : Option Int}
    {t : List Row} (h : calculate_adjusted_salaries cpi d ty = .ok t) :
    d ≠ [] ∧ (∀ y ∈ axisOf d, cpi y ≠ none) ∧
      (∀ v, ty = some v → cpi v ≠ none) := by
  unfold calculate_adjusted_salaries at h
  cases hd : densify d with
  | error e =>
    rw [hd] at h
    cases h
  | ok x =>
    have hne : d ≠ [] := by
      intro hnil
      subst hnil
      rw [densify_nil] at hd
      cases hd
    rw [densify_ok hne] at hd
    injection hd with hd
    subst hd
    rw [densify_ok hne] at h
    have h2 : (match inflationStage cpi (axisOf d) (refColOf d) ty with
        | Except.error e => Except.error e
        | Except.ok infl =>
          Except.ok (mkRows (axisOf d) (salColOf d) (refColOf d) infl)) =
        Except.ok t := h
    clear h
    cases hi : inflationStage cpi (axisOf d) (refColOf d) ty with
    | error e =>
      rw [hi] at h2
      cases h2
    | ok infl =>
      refine ⟨hne, ?_, ?_⟩
      · -- both policies start by looking up the whole axis
        cases ty with
        | none =>
          unfold inflationStage calculate_inflation_vec at hi
          cases hlv2 : lookupVec cpi (axisOf d) with
          | error e =>
            rw [hlv2] at hi
            cases hi
          | ok i2s => exact lookupVec_ok_mem hlv2
        | some v =>
          unfold inflationStage calculate_inflation_bcast at hi
          have hib : (match lookupVec cpi (axisOf d) with
              | Except.error e => Except.error e
              | Except.ok i2 =>
                match cpi v with
                | none => Except.error (PyErr.keyErr v)
                | some i1 => Except.ok (i2.map (· / i1))) = Except.ok infl := hi
          cases hlv2 : lookupVec cpi (axisOf d) with
          | error e =>
            rw [hlv2] at hib
            cases hib
          | ok i2s => exact lookupVec_ok_mem hlv2
      · intro v hv
        subst hv
        unfold inflationStage calculate_inflation_bcast at hi
        have hib : (match lookupVec cpi (axisOf d) with
            | Except.error e => Except.error e
            | Except.ok i2 =>
              match cpi v with
              | none => Except.error (PyErr.keyErr v)
              | some i1 => Except.ok (i2.map (· / i1))) = Except.ok infl := hi
        cases hlv2 : lookupVec cpi (axisOf d) with
        | error e =>
          rw [hlv2] at hib
          cases hib
        | ok i2s =>
          rw [hlv2] at hib
          cases hqv : cpi v with
          | none =>
            rw [hqv] at hib
            cases hib
          | some qv => exact fun hc => Option.noConfusion hc

/-- Every observation year lies on the densified axis. -/
lemma obsYear_mem_axisOf {d : List (Int × ℚ)} {p : Int × ℚ} (hp : p ∈ d) :
    p.1 ∈ axisOf d := by
  unfold axisOf
  rw [mem_unionIdx]
  exact Or.inl (List.mem_map_of_mem _ ((sortObs_perm d).mem_iff.mpr hp))

/-- A successful run under a spec-conforming provider forces all observation
years (and the fixed target year, if any) into the provider's range. -/
lemma adjust_ok_ranges {cpi : Int → Option ℚ} (hcpi : IsCpiProvider cpi)
    {d : List (Int × ℚ)} {ty : Option Int} {t : List Row}
    (h : calculate_adjusted_salaries cpi d ty = .ok t) :
    d ≠ [] ∧ (∀ p ∈ d, 1988 ≤ p.1 ∧ p.1 ≤ 2024) ∧
      (∀ v, ty = some v → 1988 ≤ v ∧ v ≤ 2024) := by
  obtain ⟨hne, haxis, hty⟩ := adjust_ok_inv h
  refine ⟨hne, ?_, ?_⟩
  · intro p hp
    have hy := haxis p.1 (obsYear_mem_axisOf hp)
    cases hq : cpi p.1 with
    | none => exact absurd hq hy
    | some q => exact provider_mem_range hcpi hq
  · intro v hv
    have hy := hty v hv
    cases hq : cpi v with
    | none => exact absurd hq hy
    | some q => exact provider_mem_range hcpi hq

/-- Convenience: a successful run with unique observation years under a
spec-conforming provider produces exactly the `specRow` table. -/
lemma adjust_ok_spec_of_nodup {cpi : Int → Option ℚ} (hcpi : IsCpiProvider cpi)
    {d : List (Int × ℚ)} {ty : Option Int} {t : List Row}
    (hnd : (d.map (·.1)).Nodup)
    (hok : calculate_adjusted_salaries cpi d ty = .ok t) :
    t = (intRange (firstObsYear d) 2025).map (specRow cpi (sortObs d) ty) ∧
      d ≠ [] := by
  obtain ⟨hne, hrange, hty⟩ := adjust_ok_ranges hcpi hok
  rw [adjust_eq_spec hcpi hnd hne hrange hty] at hok
  injection hok with hok
  exact ⟨hok.symm, hne⟩

/-! ### Claim theorems -/

/-- C1: For every row of the densified table produced by
`calculate_adjusted_salaries`, the eroded salary equals the row's step-held
salary divided by `inflation_ratio(reference_year, row_year)` and the target
salary equals the step-held salary multiplied by that ratio, where
`inflation_ratio(year_from, year_to) = index_of(year_to) / index_of(year_from)`
(`calculate_inflation` returns exactly `i2 / i1` on those index values). -/
theorem eroded_and_target_follow_inflation_ratio {cpi : Int → Option ℚ}
    {d : List (Int × ℚ)} {ty : Option Int} {t : List Row}
    (h : calculate_adjusted_salaries cpi d ty = .ok t) :
    ∀ r ∈ t, ∃ (ry : Int) (i1 i2 : ℚ),
      effectiveRef ty r = some ry ∧ cpi ry = some i1 ∧ cpi r.year = some i2 ∧
      calculate_inflation cpi ry r.year = .ok (i2 / i1) ∧
      r.erodedSalary = r.salary.map (· / (i2 / i1)) ∧
      r.targetSalary = r.salary.map (· * (i2 / i1)) := by
  intro r hr
  obtain ⟨ry, i1, i2, h1, h2, h3, h4, h5⟩ := rows_formula h r hr
  refine ⟨ry, i1, i2, h1, h2, h3, ?_, h4, h5⟩
  unfold calculate_inflation
  rw [h3, h2]

unseal Rat.mul Rat.inv Rat.add in
theorem eroded_and_target_follow_inflation_ratio_witness :
    ∃ t r, calculate_adjusted_salaries cpiExample [(2024, (100:ℚ))] none = .ok t ∧
      r ∈ t ∧ ∃ (ry : Int) (i1 i2 : ℚ),
      effectiveRef none r = some ry ∧ cpiExample ry = some i1 ∧
      cpiExample r.year = some i2 ∧
      calculate_inflation cpiExample ry r.year = .ok (i2 / i1) ∧
      r.erodedSalary = r.salary.map (· / (i2 / i1)) ∧
      r.targetSalary = r.salary.map (· * (i2 / i1)) := by
  refine ⟨[⟨2024, some 100, some 2024, some 100, some 100⟩],
    ⟨2024, some 100, some 2024, some 100, some 100⟩, by decide, by decide,
    @eroded_and_target_follow_inflation_ratio cpiExample [(2024, (100:ℚ))] none
      [⟨2024, some 100, some 2024, some 100, some 100⟩] (by decide)
      ⟨2024, some 100, some 2024, some 100, some 100⟩ (by decide)⟩

/-- C2: Under a spec-conforming provider (maximum known year 2024), any
non-empty observation mapping with unique years whose adjustment succeeds
yields exactly one row per integer year from the minimum observation year
through 2024 (the list `intRange (firstObsYear d) 2025`), `firstObsYear d`
being the minimum observation year; in particular the spec's example
observations under `Fixed(2002)` give one row per year 2002–2024. -/
theorem axis_covers_min_obs_to_provider_max :
    (∀ (cpi : Int → Option ℚ), IsCpiProvider cpi →
      ∀ (d : List (Int × ℚ)) (ty : Option Int) (t : List Row),
        (d.map (·.1)).Nodup →
        calculate_adjusted_salaries cpi d ty = .ok t →
        t.map (·.year) = intRange (firstObsYear d) 2025 ∧
        (∀ p ∈ d, firstObsYear d ≤ p.1) ∧
        (∃ p ∈ d, p.1 = firstObsYear d)) ∧
    Except.map (fun t => t.map (·.year))
        (calculate_adjusted_salaries cpiExample exampleObs (some 2002)) =
      .ok (intRange 2002 2025) := by
  constructor
  · intro cpi hcpi d ty t hnd hok
    obtain ⟨ht, hne⟩ := adjust_ok_spec_of_nodup hcpi hnd hok
    subst ht
    refine ⟨?_, ?_, ?_⟩
    · rw [List.map_map]
      have hcomp : ((fun r : Row => r.year) ∘ specRow cpi (sortObs d) ty) =
          fun y => y := rfl
      rw [hcomp, List.map_id']
    · exact fun p hp => firstObsYear_min p ((sortObs_perm d).mem_iff.mpr hp)
    · cases hsal : sortObs d with
      | nil => exact absurd (sortObs_eq_nil_iff.mp hsal) hne
      | cons q rest =>
        have hq : q ∈ sortObs d := by
          rw [hsal]
          exact List.mem_cons_self _ _
        have hq1 : firstObsYear d = q.1 := by
          unfold firstObsYear
          rw [hsal]
          rfl
        exact ⟨q, (sortObs_perm d).mem_iff.mp hq, hq1.symm⟩
  · decide

unseal Rat.mul Rat.inv Rat.add in
theorem axis_covers_min_obs_to_provider_max_witness :
    ∃ t, calculate_adjusted_salaries cpiExample exampleObs (some 2002) = .ok t ∧
      t.map (·.year) = intRange (firstObsYear exampleObs) 2025 := by
  refine ⟨_, rfl, (axis_covers_min_obs_to_provider_max.1 cpiExample
    cpiExample_isProvider exampleObs (some 2002) _ (by decide) rfl).1⟩

/-- C3: On success, the salary of every row is the value of the most recent
observation at or before the row's year (step-hold / forward fill, with years
after the last observation carrying the last observation's value); in
particular the spec's example observations give salary 24000 for 2002–2013,
35000 for 2014–2021 and 55000 for 2022–2024. -/
theorem salary_is_step_held_forward_fill :
    (∀ (cpi : Int → Option ℚ), IsCpiProvider cpi →
      ∀ (d : List (Int × ℚ)) (ty : Option Int) (t : List Row),
        (d.map (·.1)).Nodup →
        calculate_adjusted_salaries cpi d ty = .ok t →
        ∀ r ∈ t, ∃ p : Int × ℚ,
          mostRecentAtOrBefore (sortObs d) r.year = some p ∧
          r.salary = some p.2) ∧
    Except.map (fun t => t.map (fun r => (r.year, r.salary)))
        (calculate_adjusted_salaries cpiExample exampleObs (some 2002)) =
      .ok ((intRange 2002 2025).map (fun y =>
        (y, some (if y ≤ 2013 then (24000:ℚ)
          else if y ≤ 2021 then 35000 else 55000)))) := by
  constructor
  · intro cpi hcpi d ty t hnd hok r hr
    obtain ⟨ht, hne⟩ := adjust_ok_spec_of_nodup hcpi hnd hok
    subst ht
    obtain ⟨y, hy, rfl⟩ := List.mem_map.mp hr
    have hfy : firstObsYear d ≤ y := (mem_intRange.mp hy).1
    have h2 := mostRecent_ne_none_on_axis hne hfy
    cases hmr : mostRecentAtOrBefore (sortObs d) y with
    | none => exact absurd hmr h2
    | some p =>
      refine ⟨p, hmr, ?_⟩
      simp only [specRow, hmr, Option.getD_some]
  · decide

unseal Rat.mul Rat.inv Rat.add in
theorem salary_is_step_held_forward_fill_witness :
    ∃ p : Int × ℚ, mostRecentAtOrBefore (sortObs [(2024, (100:ℚ))])
        (Row.year ⟨2024, some 100, some 2024, some 100, some 100⟩) = some p ∧
      Row.salary ⟨2024, some 100, some 2024, some 100, some 100⟩ = some p.2 :=
  (salary_is_step_held_forward_fill.1 cpiExample cpiExample_isProvider
    [(2024, (100:ℚ))] none [⟨2024, some 100, some 2024, some 100, some 100⟩]
    (by decide) (by decide)) ⟨2024, some 100, some 2024, some 100, some 100⟩
    (by decide)

/-- C4: Under the floating policy (`target_year = None`), each row's
`reference` equals the most recent observation year at or before the row's
year; under `Fixed(v)`, the ratio applied to every row is anchored at the
constant year `v`; in particular the spec's example observations under
Floating show reference 2002 for 2002–2013, 2014 for 2014–2021 and 2022 for
2022–2024. -/
theorem reference_year_policy_floating_and_fixed :
    (∀ (cpi : Int → Option ℚ), IsCpiProvider cpi →
      ∀ (d : List (Int × ℚ)) (ty : Option Int) (t : List Row),
        (d.map (·.1)).Nodup →
        calculate_adjusted_salaries cpi d ty = .ok t →
        ∀ r ∈ t, ∃ p : Int × ℚ,
          mostRecentAtOrBefore (sortObs d) r.year = some p ∧
          r.reference = some p.1) ∧
    (∀ (cpi : Int → Option ℚ) (d : List (Int × ℚ)) (v : Int) (t : List Row),
      calculate_adjusted_salaries cpi d (some v) = .ok t →
      ∀ r ∈ t, ∃ q : ℚ, calculate_inflation cpi v r.year = .ok q ∧
        r.erodedSalary = r.salary.map (· / q) ∧
        r.targetSalary = r.salary.map (· * q)) ∧
    Except.map (fun t => t.map (fun r => (r.year, r.reference)))
        (calculate_adjusted_salaries cpiExample exampleObs none) =
      .ok ((intRange 2002 2025).map (fun y =>
        (y, some (if y ≤ 2013 then (2002:Int)
          else if y ≤ 2021 then 2014 else 2022)))) := by
  refine ⟨?_, ?_, ?_⟩
  · intro cpi hcpi d ty t hnd hok r hr
    obtain ⟨ht, hne⟩ := adjust_ok_spec_of_nodup hcpi hnd hok
    subst ht
    obtain ⟨y, hy, rfl⟩ := List.mem_map.mp hr
    have hfy : firstObsYear d ≤ y := (mem_intRange.mp hy).1
    have h2 := mostRecent_ne_none_on_axis hne hfy
    cases hmr : mostRecentAtOrBefore (sortObs d) y with
    | none => exact absurd hmr h2
    | some p =>
      refine ⟨p, hmr, ?_⟩
      simp only [specRow, hmr, Option.getD_some]
  · intro cpi d v t hok r hr
    obtain ⟨ry, i1, i2, h1, h2, h3, h4, h5⟩ := rows_formula hok r hr
    have hv : ry = v := by
      have : effectiveRef (some v) r = some v := rfl
      rw [this] at h1
      injection h1 with h1
      exact h1.symm
    subst hv
    refine ⟨i2 / i1, ?_, h4, h5⟩
    unfold calculate_inflation
    rw [h3, h2]
  · decide

unseal Rat.mul Rat.inv Rat.add in
theorem reference_year_policy_floating_and_fixed_witness :
    (∃ p : Int × ℚ, mostRecentAtOrBefore (sortObs [(2024, (100:ℚ))])
        (Row.year ⟨2024, some 100, some 2024, some 100, some 100⟩) = some p ∧
      Row.reference ⟨2024, some 100, some 2024, some 100, some 100⟩ = some p.1) ∧
    (∃ q : ℚ, calculate_inflation cpiExample 2024
        (Row.year ⟨2024, some 100, some 2024, some 100, some 100⟩) = .ok q ∧
      Row.erodedSalary ⟨2024, some 100, some 2024, some 100, some 100⟩ =
        (Row.salary ⟨2024, some 100, some 2024, some 100, some 100⟩).map (· / q) ∧
      Row.targetSalary ⟨2024, some 100, some 2024, some 100, some 100⟩ =
        (Row.salary ⟨2024, some 100, some 2024, some 100, some 100⟩).map (· * q)) :=
  ⟨(reference_year_policy_floating_and_fixed.1 cpiExample cpiExample_isProvider
      [(2024, (100:ℚ))] (some 2024) [⟨2024, some 100, some 2024, some 100, some 100⟩]
      (by decide) (by decide)) ⟨2024, some 100, some 2024, some 100, some 100⟩
      (by decide),
    (reference_year_policy_floating_and_fixed.2.1 cpiExample [(2024, (100:ℚ))] 2024
      [⟨2024, some 100, some 2024, some 100, some 100⟩] (by decide))
      ⟨2024, some 100, some 2024, some 100, some 100⟩ (by decide)⟩

/-- C5 counterexample: on the empty observation mapping the program raises the
pandas `IndexError` from `salaries.index[0]` — in Python a subclass of
`LookupError` — and the program defines no `InvalidInputError` class at all,
so the failure is not an `InvalidInputError`. -/
theorem empty_obs_raises_index_error_not_invalid_input :
    calculate_adjusted_salaries cpiExample [] none = .error PyErr.indexErr ∧
    isInvalidInputError PyErr.indexErr = false ∧
    isLookupError PyErr.indexErr = true :=
  ⟨rfl, rfl, rfl⟩

/-- C5 (amended): calling the adjuster on an empty observation mapping fails,
for every provider and reference policy, with the `IndexError` raised by
`salaries.index[0]` (a `LookupError`, not a distinct `InvalidInputError`),
and no partial result is produced. -/
theorem empty_obs_fails_for_every_policy :
    ∀ (cpi : Int → Option ℚ) (ty : Option Int),
      calculate_adjusted_salaries cpi [] ty = .error PyErr.indexErr :=
  fun _ _ => rfl

/-- C6: A year missing from the CPI table makes `calculate_inflation` fail
with the `KeyError` (a `LookupError`) naming that year — no clamping or
extrapolation; in particular looking up 1900 fails when the provider starts
at 1988. -/
theorem missing_year_lookup_fails_with_lookup_error :
    (∀ (cpi : Int → Option ℚ) (y1 y2 : Int), cpi y2 = none →
      calculate_inflation cpi y1 y2 = .error (PyErr.keyErr y2) ∧
      isLookupError (PyErr.keyErr y2) = true) ∧
    (∀ (cpi : Int → Option ℚ) (y1 y2 : Int) (i2 : ℚ), cpi y2 = some i2 →
      cpi y1 = none →
      calculate_inflation cpi y1 y2 = .error (PyErr.keyErr y1) ∧
      isLookupError (PyErr.keyErr y1) = true) ∧
    cpiExample 1900 = none ∧
    calculate_inflation cpiExample 1900 2024 = .error (PyErr.keyErr 1900) := by
  refine ⟨?_, ?_, by decide, by decide⟩
  · intro cpi y1 y2 h
    unfold calculate_inflation
    rw [h]
    exact ⟨rfl, rfl⟩
  · intro cpi y1 y2 i2 h2 h1
    unfold calculate_inflation
    rw [h2, h1]
    exact ⟨rfl, rfl⟩

theorem missing_year_lookup_fails_with_lookup_error_witness :
    calculate_inflation cpiExample 2000 2030 = .error (PyErr.keyErr 2030) ∧
    isLookupError (PyErr.keyErr 2030) = true :=
  missing_year_lookup_fails_with_lookup_error.1 cpiExample 2000 2030 (by decide)

/-- C7 counterexample: the spec's claim that
`eroded_salary * inflation_ratio(reference_year, row_year)^2 ≈ target_salary`
is "NOT generally true" is false: no provider, input, row or ratio exists on
which the equation fails — algebraically `(s / q) * q² = s * q` exactly. -/
theorem round_trip_equation_never_fails :
    ¬ ∃ (cpi : Int → Option ℚ) (d : List (Int × ℚ)) (ty : Option Int)
        (t : List Row) (r : Row) (q : ℚ),
      IsCpiProvider cpi ∧ calculate_adjusted_salaries cpi d ty = .ok t ∧
      r ∈ t ∧
      (∃ ry, effectiveRef ty r = some ry ∧
        calculate_inflation cpi ry r.year = .ok q) ∧
      r.erodedSalary.map (· * q ^ 2) ≠ r.targetSalary := by
  rintro ⟨cpi, d, ty, t, r, q, hcpi, hok, hr, ⟨ry, href, hinf⟩, hne⟩
  obtain ⟨ry2, i1, i2, h1, h2, h3, h4, h5⟩ := rows_formula hok r hr
  rw [href] at h1
  injection h1 with h1
  subst h1
  unfold calculate_inflation at hinf
  rw [h3, h2] at hinf
  injection hinf with hinf
  have hp1 : 0 < i1 := provider_pos hcpi h2
  have hp2 : 0 < i2 := provider_pos hcpi h3
  have hq : q ≠ 0 := by
    rw [← hinf]
    positivity
  apply hne
  rw [h4, h5]
  cases hs : r.salary with
  | none => rfl
  | some s =>
    simp only [Option.map_some']
    congr 1
    rw [← hinf]
    field_simp
    ring

/-- C7 (amended): for every row of every successful run under a
spec-conforming provider, `eroded_salary * ratio² = target_salary` holds
exactly (in exact rational arithmetic): the two derived columns satisfy the
round-trip identity rather than violating it. -/
theorem eroded_times_ratio_sq_eq_target {cpi : Int → Option ℚ}
    (hcpi : IsCpiProvider cpi) {d : List (Int × ℚ)} {ty : Option Int}
    {t : List Row} (hok : calculate_adjusted_salaries cpi d ty = .ok t) :
    ∀ r ∈ t, ∀ (ry : Int) (q : ℚ), effectiveRef ty r = some ry →
      calculate_inflation cpi ry r.year = .ok q →
      r.erodedSalary.map (· * q ^ 2) = r.targetSalary := by
  intro r hr ry q href hinf
  obtain ⟨ry2, i1, i2, h1, h2, h3, h4, h5⟩ := rows_formula hok r hr
  rw [href] at h1
  injection h1 with h1
  subst h1
  unfold calculate_inflation at hinf
  rw [h3, h2] at hinf
  injection hinf with hinf
  have hp1 : 0 < i1 := provider_pos hcpi h2
  have hp2 : 0 < i2 := provider_pos hcpi h3
  have hq : q ≠ 0 := by
    rw [← hinf]
    positivity
  rw [h4, h5]
  cases hs : r.salary with
  | none => rfl
  | some s =>
    simp only [Option.map_some']
    congr 1
    rw [← hinf]
    field_simp
    ring

unseal Rat.mul Rat.inv Rat.add in
theorem eroded_times_ratio_sq_eq_target_witness :
    Option.map (· * (1:ℚ) ^ 2)
        (Row.erodedSalary ⟨2024, some 100, some 2024, some 100, some 100⟩) =
      Row.targetSalary ⟨2024, some 100, some 2024, some 100, some 100⟩ :=
  @eroded_times_ratio_sq_eq_target cpiExample cpiExample_isProvider
    [(2024, (100:ℚ))] none [⟨2024, some 100, some 2024, some 100, some 100⟩]
    (by decide) ⟨2024, some 100, some 2024, some 100, some 100⟩ (by decide)
    2024 1 (by decide) (by decide)

/-- C8: for all years known to the provider, the inflation ratio satisfies
`inflation_ratio(a, b) = 1 / inflation_ratio(b, a)` and
`inflation_ratio(y, y) = 1`. -/
theorem inflation_ratio_inverse_and_identity :
    ∀ (cpi : Int → Option ℚ), IsCpiProvider cpi →
      ∀ (a b : Int), 1988 ≤ a → a ≤ 2024 → 1988 ≤ b → b ≤ 2024 →
        (∃ qab qba : ℚ, calculate_inflation cpi a b = .ok qab ∧
          calculate_inflation cpi b a = .ok qba ∧ qab = 1 / qba) ∧
        calculate_inflation cpi a a = .ok 1 := by
  intro cpi hcpi a b ha1 ha2 hb1 hb2
  obtain ⟨qa, hqa_pos, hqa⟩ := hcpi.1 a ha1 ha2
  obtain ⟨qb, hqb_pos, hqb⟩ := hcpi.1 b hb1 hb2
  constructor
  · refine ⟨qb / qa, qa / qb, ?_, ?_, ?_⟩
    · unfold calculate_inflation
      rw [hqb, hqa]
    · unfold calculate_inflation
      rw [hqa, hqb]
    · rw [one_div_div]
  · unfold calculate_inflation
    rw [hqa]
    show Except.ok (qa / qa) = Except.ok 1
    rw [div_self (ne_of_gt hqa_pos)]

theorem inflation_ratio_inverse_and_identity_witness :
    (∃ qab qba : ℚ, calculate_inflation cpiExample 1990 2000 = .ok qab ∧
      calculate_inflation cpiExample 2000 1990 = .ok qba ∧ qab = 1 / qba) ∧
    calculate_inflation cpiExample 1990 1990 = .ok 1 :=
  inflation_ratio_inverse_and_identity cpiExample cpiExample_isProvider 1990 2000
    (by decide) (by decide) (by decide) (by decide)

/-- C9 counterexample: for the out-of-range observation `{2030: 100}` the
densification step (lines 68–71, which never consults the CPI table)
completes and returns a dense table, and the computation then fails with a
`KeyError` raised during the ratio stage — so no rejection happens before
densification. -/
theorem out_of_range_obs_densified_then_ratio_fails :
    densify [(2030, (100:ℚ))] = .ok ([2030], [some 100], [some 2030]) ∧
    calculate_adjusted_salaries cpiExample [(2030, 100)] none =
      .error (PyErr.keyErr 2030) := by
  constructor
  · decide
  · decide

/-- C9 (amended): observation years outside the provider's range are not
rejected before densification: densification succeeds for every non-empty
input, and the computation then fails with a `LookupError` in the ratio
stage, producing no table. -/
theorem out_of_range_obs_fail_during_ratio_stage :
    ∀ (cpi : Int → Option ℚ), IsCpiProvider cpi →
      ∀ (d : List (Int × ℚ)) (ty : Option Int), d ≠ [] →
        (∃ p ∈ d, p.1 < 1988 ∨ 2024 < p.1) →
        densify d = .ok (axisOf d, salColOf d, refColOf d) ∧
        ∃ e, calculate_adjusted_salaries cpi d ty = .error e ∧
          isLookupError e = true := by
  rintro cpi hcpi d ty hne ⟨p, hp, hout⟩
  refine ⟨densify_ok hne, ?_⟩
  cases hres : calculate_adjusted_salaries cpi d ty with
  | ok t =>
    obtain ⟨_, haxis, _⟩ := adjust_ok_inv hres
    have hsome := haxis p.1 (obsYear_mem_axisOf hp)
    have hnone : cpi p.1 = none := hcpi.2 p.1 hout
    exact absurd hnone hsome
  | error e => exact ⟨e, rfl, rfl⟩

theorem out_of_range_obs_fail_during_ratio_stage_witness :
    densify [(2030, (100:ℚ))] =
      .ok (axisOf [(2030, (100:ℚ))], salColOf [(2030, (100:ℚ))],
        refColOf [(2030, (100:ℚ))]) ∧
    ∃ e, calculate_adjusted_salaries cpiExample [(2030, (100:ℚ))] none =
        .error e ∧ isLookupError e = true :=
  out_of_range_obs_fail_during_ratio_stage cpiExample cpiExample_isProvider
    [(2030, (100:ℚ))] none (by decide) ⟨(2030, 100), by decide, by decide⟩

/-- C10: the state-passing translation of `calculate_adjusted_salaries`
returns the shared state (observation dict and cached CPI table) unchanged on
every invocation, including failing ones, and its result is exactly the pure
function of that state. -/
theorem adjuster_leaves_state_unchanged :
    ∀ (st : AppState) (ty : Option Int),
      (calculate_adjusted_salaries_st st ty).1 = st ∧
      (calculate_adjusted_salaries_st st ty).2 =
        calculate_adjusted_salaries st.cpi_cache st.salaries_dict ty := by
  intro st ty
  unfold calculate_adjusted_salaries_st calculate_adjusted_salaries
  cases densify st.salaries_dict with
  | error e => exact ⟨rfl, rfl⟩
  | ok x =>
    obtain ⟨axis, salCol, refCol⟩ := x
    dsimp only
    cases inflationStage st.cpi_cache axis refCol ty with
    | error e => exact ⟨rfl, rfl⟩
    | ok infl => exact ⟨rfl, rfl⟩

end SalaryVsInflation
